import Mathlib

/-!
Verification of the content-based movie recommendation engine.

The definitions below are a shallow embedding of the training and serving
code: the similarity computation (src/training/similarity.py), the feature
engineering (src/training/feature_engineering.py) and the request
validation of the API layer (api/main.py).  Machine floats are modelled by
rationals (and reals where a square root is required); numpy matrices are
total functions out of Fin; fallible Python code (raise) returns Except.
-/

namespace MovieRec

/-! ### Similarity computation (src/training/similarity.py) -/

/-- Dot product of two feature rows, as in numpy. -/
def dotF {d : Nat} (x y : Fin d → ℚ) : ℚ := ∑ k, x k * y k

/-- One entry of sklearn cosine_similarity: the dot product divided by the
product of the Euclidean norms.  sklearn maps a zero-norm row to the zero
vector, which coincides with the division-by-zero convention of ℝ. -/
noncomputable def cosineEntry {d : Nat} (x y : Fin d → ℚ) : ℝ :=
  (dotF x y : ℝ) / (Real.sqrt (dotF x x) * Real.sqrt (dotF y y))

/-- SimilarityComputer.compute_cosine_similarity: pairwise cosine matrix. -/
noncomputable def compute_cosine_similarity {n d : Nat} (feature_matrix : Fin n → Fin d → ℚ) :
    Fin n → Fin n → ℝ :=
  fun i j => cosineEntry (feature_matrix i) (feature_matrix j)

/-- The genre-membership set of one binary genre row. -/
def memSet {g : Nat} (x : Fin g → Bool) : Finset (Fin g) :=
  Finset.univ.filter (fun k => x k = true)

/-- One entry of the Jaccard loop body: intersection count over union count,
with the `union > 0` guard of the source (0.0 when the union is empty). -/
def jaccardEntry {g : Nat} (x y : Fin g → Bool) : ℚ :=
  let inter : Nat := (Finset.univ.filter (fun k => (x k && y k) = true)).card
  let union : Nat := (Finset.univ.filter (fun k => (x k || y k) = true)).card
  if 0 < union then (inter : ℚ) / (union : ℚ) else 0

/-- SimilarityComputer.compute_jaccard_similarity: the double loop runs over
pairs i ≤ j and writes the value to both (i,j) and (j,i). -/
def compute_jaccard_similarity {n g : Nat} (genre_matrix : Fin n → Fin g → Bool) :
    Fin n → Fin n → ℚ :=
  fun i j =>
    if (i : Nat) ≤ (j : Nat) then jaccardEntry (genre_matrix i) (genre_matrix j)
    else jaccardEntry (genre_matrix j) (genre_matrix i)

/-- Python dict assignment d[k] = v on an insertion-ordered association
list: replace in place if the key exists, append otherwise. -/
def dictSet {α : Type} : List (String × α) → String → α → List (String × α)
  | [], k, v => [(k, v)]
  | (k0, v0) :: rest, k, v =>
    if k0 = k then (k, v) :: rest else (k0, v0) :: dictSet rest k v

/-- Python dict lookup d.get(k). -/
def dictGet {α : Type} : List (String × α) → String → Option α
  | [], _ => none
  | (k0, v0) :: rest, k => if k0 = k then some v0 else dictGet rest k

/-- SimilarityComputer.SUPPORTED_METHODS. -/
def SUPPORTED_METHODS : List String := ["cosine", "jaccard"]

/-- The mutable state of a SimilarityComputer instance.  Both stored
matrices are float-valued numpy arrays, so they live in ℝ here; the
Jaccard one is the cast of the rational matrix. -/
structure SimilarityComputer (n d : Nat) where
  similarity_matrices : List (String × (Fin n → Fin n → ℝ))
  feature_matrix : Option (Fin n → Fin d → ℚ)
  genre_columns : Option (List String)

/-- SimilarityComputer.__init__. -/
def SimilarityComputer.init (n d : Nat) : SimilarityComputer n d :=
  ⟨[], none, none⟩

/-- One iteration of the method loop in compute_all_similarities: a
recognized name stores its matrix under its own key, an unknown name only
logs a warning and leaves the dict unchanged. -/
noncomputable def simStep {n d g : Nat} (X : Fin n → Fin d → ℚ) (G : Fin n → Fin g → Bool)
    (dct : List (String × (Fin n → Fin n → ℝ))) (method : String) :
    List (String × (Fin n → Fin n → ℝ)) :=
  if method = "cosine" then
    dictSet dct "cosine" (compute_cosine_similarity X)
  else if method = "jaccard" then
    dictSet dct "jaccard" (fun i j => ((compute_jaccard_similarity G i j : ℚ) : ℝ))
  else
    dct

/-- SimilarityComputer.compute_all_similarities.  `G` stands for the
genre-only matrix movies_features[genre_columns].values extracted in the
jaccard branch; a `none` methods argument defaults to SUPPORTED_METHODS.
Returns the updated instance together with the returned dict (which is the
instance's whole similarity_matrices attribute, old entries included). -/
noncomputable def compute_all_similarities {n d g : Nat} (sc : SimilarityComputer n d)
    (X : Fin n → Fin d → ℚ) (gc : List String) (G : Fin n → Fin g → Bool)
    (methods : Option (List String)) :
    SimilarityComputer n d × List (String × (Fin n → Fin n → ℝ)) :=
  let ms := methods.getD SUPPORTED_METHODS
  let sms := ms.foldl (fun dct m => simStep X G dct m) sc.similarity_matrices
  (⟨sms, some X, some gc⟩, sms)

/-- SimilarityComputer.get_similarity_matrix: raises ValueError when the
method was never computed. -/
def get_similarity_matrix {n d : Nat} (sc : SimilarityComputer n d) (method : String) :
    Except String (Fin n → Fin n → ℝ) :=
  match dictGet sc.similarity_matrices method with
  | none => Except.error "Similarity matrix for method not computed"
  | some M => Except.ok M

/-! ### Feature engineering (src/training/feature_engineering.py) -/

/-- Insert a value into a sorted list of rationals. -/
def insertSorted (a : ℚ) : List ℚ → List ℚ
  | [] => [a]
  | b :: l => if a ≤ b then a :: b :: l else b :: insertSorted a l

/-- Sort a list of rationals ascending (insertion sort). -/
def sortQ : List ℚ → List ℚ
  | [] => []
  | a :: l => insertSorted a (sortQ l)

/-- pandas Series.median over the non-null values: sort ascending, take the
middle element, or the mean of the two middle elements for an even count.
The value on an empty list is junk (pandas yields NaN there); every theorem
that uses the median carries a nonemptiness hypothesis. -/
def medianQ (l : List ℚ) : ℚ :=
  let s := sortQ l
  if l.length % 2 = 1 then (s.get? (l.length / 2)).getD 0
  else ((s.get? (l.length / 2 - 1)).getD 0 + (s.get? (l.length / 2)).getD 0) / 2

/-- Minimum of a list, junk 0 on []; sklearn MinMaxScaler.fit data_min_. -/
def listMin : List ℚ → ℚ
  | [] => 0
  | a :: l => l.foldl min a

/-- Maximum of a list, junk 0 on []; sklearn MinMaxScaler.fit data_max_. -/
def listMax : List ℚ → ℚ
  | [] => 0
  | a :: l => l.foldl max a

/-- A movie corpus: per row an optional release year (None = missing, as a
pandas NaN) and the binary genre flags in the fixed configured order. -/
structure Corpus (n g : Nat) where
  year : Fin n → Option ℚ
  genres : Fin n → Fin g → Bool

/-- The year values actually present in the corpus, in row order. -/
def presentYears {n g : Nat} (c : Corpus n g) : List ℚ :=
  (List.ofFn c.year).filterMap id

/-- The year column after the fillna step: a missing year becomes the
corpus median (pandas median skips NaN). -/
def filledYear {n g : Nat} (c : Corpus n g) : Fin n → ℚ :=
  fun i => (c.year i).getD (medianQ (presentYears c))

/-- The fitted MinMaxScaler parameters (data_min_, data_max_) over the
filled year column. -/
def fitParams {n g : Nat} (c : Corpus n g) : ℚ × ℚ :=
  (listMin (List.ofFn (filledYear c)), listMax (List.ofFn (filledYear c)))

/-- Applying a fitted MinMaxScaler with feature_range (0,1): value minus
data_min_ times the scale; sklearn replaces a zero range by scale 1. -/
def scaleTransform (p : ℚ × ℚ) (y : ℚ) : ℚ :=
  (y - p.1) * (if p.2 - p.1 = 0 then 1 else 1 / (p.2 - p.1))

/-- The FeatureEngineer instance state: configured year weight, genre
column names, and the fitted scaler parameters (none until fit). -/
structure FeatureEngineer where
  year_weight : ℚ
  genre_columns : List String
  fitted : Option (ℚ × ℚ)

/-- FeatureEngineer.is_fitted. -/
def FeatureEngineer.is_fitted (fe : FeatureEngineer) : Bool := fe.fitted.isSome

/-- FeatureEngineer.get_feature_names. -/
def get_feature_names (fe : FeatureEngineer) : List String :=
  fe.genre_columns ++ ["year_normalized"]

/-- movies_features[feature_columns].values: the G genre flags as 0.0/1.0
floats in configured order, then the normalized year as last column. -/
def featureMatrix {n g : Nat} (c : Corpus n g) (yn : Fin n → ℚ) :
    Fin n → Fin (g + 1) → ℚ :=
  fun i k =>
    if h : (k : Nat) < g then (if c.genres i ⟨k, h⟩ then 1 else 0) else yn i

/-- The FeatureEngineer returned by a successful fit_transform: the scaler
now holds the (data_min_, data_max_) of the fit corpus year column. -/
def afterFit {n g : Nat} (fe : FeatureEngineer) (c : Corpus n g) : FeatureEngineer :=
  { fe with fitted := some (fitParams c) }

/-- The feature matrix returned by a successful fit_transform: genre flags
then the year scaled into [0, year_weight] by the just-fitted scaler. -/
def fitMatrix {n g : Nat} (fe : FeatureEngineer) (c : Corpus n g) :
    Fin n → Fin (g + 1) → ℚ :=
  featureMatrix c (fun i => scaleTransform (fitParams c) (filledYear c i) * fe.year_weight)

/-- FeatureEngineer.fit_transform; sklearn raises on an empty corpus
(0 samples), otherwise the call fills years, fits the scaler and returns
the fitted engine with the feature matrix. -/
def fit_transform {n g : Nat} (fe : FeatureEngineer) (c : Corpus n g) :
    Except String (FeatureEngineer × (Fin n → Fin (g + 1) → ℚ)) :=
  if 0 < n then Except.ok (afterFit fe c, fitMatrix fe c)
  else Except.error "Found array with 0 samples"

/-- The matrix built by transform from already-fitted parameters p: note
the missing years are filled with the median of the NEW corpus, and the
previously fitted scaler is applied without clipping. -/
def transformMatrix {n g : Nat} (fe : FeatureEngineer) (p : ℚ × ℚ) (c : Corpus n g) :
    Fin n → Fin (g + 1) → ℚ :=
  featureMatrix c (fun i => scaleTransform p (filledYear c i) * fe.year_weight)

/-- FeatureEngineer.transform: raises ValueError before any fit, else
applies the fitted scaler (sklearn again raises on 0 samples). -/
def transform {n g : Nat} (fe : FeatureEngineer) (c : Corpus n g) :
    Except String (Fin n → Fin (g + 1) → ℚ) :=
  match fe.fitted with
  | none => Except.error "FeatureEngineer must be fitted before transform"
  | some p =>
    if 0 < n then Except.ok (transformMatrix fe p c)
    else Except.error "Found array with 0 samples"

/-! ### API request validation (api/main.py, RecommendationRequest) -/

/-- A parsed personalized-recommendation request body. -/
structure RecommendationRequest where
  user_ratings : List (Int × ℚ)
  n : Int
  min_rating : ℚ

/-- The loop body of the validate_ratings validator: a non-positive movie
id or an out-of-range rating raises ValueError at the first offender. -/
def checkItems : List (Int × ℚ) → Except String Unit
  | [] => Except.ok ()
  | (movie_id, rating) :: rest =>
    if movie_id < 1 then Except.error "Invalid movie_id"
    else if rating < 1 / 2 ∨ 5 < rating then
      Except.error "Rating must be between 0.5 and 5.0"
    else checkItems rest

/-- RecommendationRequest.validate_ratings: an empty mapping is rejected
outright, then every (movie_id, rating) pair is checked. -/
def validate_ratings (v : List (Int × ℚ)) : Except String (List (Int × ℚ)) :=
  if v.isEmpty then Except.error "user_ratings cannot be empty"
  else (checkItems v).map (fun _ => v)

/-- Constructing a RecommendationRequest from a request body: the pydantic
Field bounds on n (1..50) and min_rating (0.5..5.0), then the
validate_ratings validator; any violation rejects the request before a
recommendation is computed. -/
def mkRecommendationRequest (ur : List (Int × ℚ)) (n : Int) (mr : ℚ) :
    Except String RecommendationRequest :=
  if n < 1 ∨ 50 < n then Except.error "n out of range"
  else if mr < 1 / 2 ∨ 5 < mr then Except.error "min_rating out of range"
  else (validate_ratings ur).map (fun v => ⟨v, n, mr⟩)

/-! ### Helper lemmas: Jaccard entries -/

lemma filter_and_eq_inter {g : Nat} (x y : Fin g → Bool) :
    Finset.univ.filter (fun k => (x k && y k) = true) = memSet x ∩ memSet y := by
  ext k
  simp [memSet, Bool.and_eq_true]

lemma filter_or_eq_union {g : Nat} (x y : Fin g → Bool) :
    Finset.univ.filter (fun k => (x k || y k) = true) = memSet x ∪ memSet y := by
  ext k
  simp [memSet, Bool.or_eq_true]

lemma jaccardEntry_eq_inter_div_union {g : Nat} (x y : Fin g → Bool) :
    jaccardEntry x y =
      ((memSet x ∩ memSet y).card : ℚ) / ((memSet x ∪ memSet y).card : ℚ) := by
  unfold jaccardEntry
  rw [filter_and_eq_inter, filter_or_eq_union]
  by_cases h : 0 < (memSet x ∪ memSet y).card
  · simp [h]
  · have h0 : (memSet x ∪ memSet y).card = 0 := by omega
    simp [h0]

lemma jaccardEntry_comm {g : Nat} (x y : Fin g → Bool) :
    jaccardEntry x y = jaccardEntry y x := by
  rw [jaccardEntry_eq_inter_div_union, jaccardEntry_eq_inter_div_union,
    Finset.inter_comm, Finset.union_comm]

lemma compute_jaccard_eq_entry {n g : Nat} (G : Fin n → Fin g → Bool) (i j : Fin n) :
    compute_jaccard_similarity G i j = jaccardEntry (G i) (G j) := by
  unfold compute_jaccard_similarity
  split
  · rfl
  · exact jaccardEntry_comm (G j) (G i)

lemma jaccardEntry_nonneg {g : Nat} (x y : Fin g → Bool) : 0 ≤ jaccardEntry x y := by
  rw [jaccardEntry_eq_inter_div_union]
  exact div_nonneg (Nat.cast_nonneg _) (Nat.cast_nonneg _)

lemma jaccardEntry_le_one {g : Nat} (x y : Fin g → Bool) : jaccardEntry x y ≤ 1 := by
  rw [jaccardEntry_eq_inter_div_union]
  refine div_le_one_of_le₀ ?_ (Nat.cast_nonneg _)
  exact_mod_cast Finset.card_le_card Finset.inter_subset_union

lemma jaccardEntry_self_of_nonempty {g : Nat} (x : Fin g → Bool)
    (h : (memSet x).Nonempty) : jaccardEntry x x = 1 := by
  rw [jaccardEntry_eq_inter_div_union, Finset.inter_self, Finset.union_self]
  have hc : (memSet x).card ≠ 0 := Nat.pos_iff_ne_zero.1 (Finset.card_pos.2 h)
  exact div_self (by exact_mod_cast hc)

lemma jaccardEntry_self_of_empty {g : Nat} (x : Fin g → Bool)
    (h : memSet x = ∅) : jaccardEntry x x = 0 := by
  rw [jaccardEntry_eq_inter_div_union, Finset.inter_self, Finset.union_self, h]
  simp

/-! ### Helper lemmas: cosine entries -/

lemma dotF_comm {d : Nat} (x y : Fin d → ℚ) : dotF x y = dotF y x :=
  Finset.sum_congr rfl fun k _ => mul_comm (x k) (y k)

lemma dotF_self_nonneg {d : Nat} (x : Fin d → ℚ) : 0 ≤ dotF x x :=
  Finset.sum_nonneg fun k _ => mul_self_nonneg (x k)

lemma dotF_nonneg {d : Nat} {x y : Fin d → ℚ} (hx : ∀ k, 0 ≤ x k) (hy : ∀ k, 0 ≤ y k) :
    0 ≤ dotF x y :=
  Finset.sum_nonneg fun k _ => mul_nonneg (hx k) (hy k)

lemma cosineEntry_comm {d : Nat} (x y : Fin d → ℚ) : cosineEntry x y = cosineEntry y x := by
  unfold cosineEntry
  rw [dotF_comm x y, mul_comm]

lemma cosineEntry_self_of_ne_zero {d : Nat} (x : Fin d → ℚ) (h : dotF x x ≠ 0) :
    cosineEntry x x = 1 := by
  unfold cosineEntry
  rw [Real.mul_self_sqrt (by exact_mod_cast dotF_self_nonneg x)]
  exact div_self (by exact_mod_cast h)

lemma cosineEntry_nonneg {d : Nat} {x y : Fin d → ℚ} (hx : ∀ k, 0 ≤ x k)
    (hy : ∀ k, 0 ≤ y k) : 0 ≤ cosineEntry x y := by
  unfold cosineEntry
  refine div_nonneg (by exact_mod_cast dotF_nonneg hx hy) ?_
  exact mul_nonneg (Real.sqrt_nonneg _) (Real.sqrt_nonneg _)

lemma dotF_sq_le {d : Nat} (x y : Fin d → ℚ) :
    dotF x y ^ 2 ≤ dotF x x * dotF y y := by
  have h := Finset.sum_mul_sq_le_sq_mul_sq Finset.univ x y
  calc dotF x y ^ 2 ≤ (∑ k, x k ^ 2) * ∑ k, y k ^ 2 := h
    _ = dotF x x * dotF y y := by
        unfold dotF
        congr 1 <;> exact Finset.sum_congr rfl fun k _ => (sq (_ : ℚ)) ▸ rfl

lemma cosineEntry_le_one {d : Nat} {x y : Fin d → ℚ} (hx : ∀ k, 0 ≤ x k)
    (hy : ∀ k, 0 ≤ y k) : cosineEntry x y ≤ 1 := by
  unfold cosineEntry
  refine div_le_one_of_le₀ ?_ (mul_nonneg (Real.sqrt_nonneg _) (Real.sqrt_nonneg _))
  have hnum : (0 : ℝ) ≤ (dotF x y : ℝ) := by exact_mod_cast dotF_nonneg hx hy
  have hcs : ((dotF x y : ℝ)) ^ 2 ≤ (dotF x x : ℝ) * (dotF y y : ℝ) := by
    exact_mod_cast dotF_sq_le x y
  calc (dotF x y : ℝ) = Real.sqrt ((dotF x y : ℝ) ^ 2) := (Real.sqrt_sq hnum).symm
    _ ≤ Real.sqrt ((dotF x x : ℝ) * (dotF y y : ℝ)) := Real.sqrt_le_sqrt hcs
    _ = Real.sqrt (dotF x x : ℝ) * Real.sqrt (dotF y y : ℝ) :=
        Real.sqrt_mul (by exact_mod_cast dotF_self_nonneg x) _

/-! ### Claim theorems: similarity matrices -/

/-- C1 (counterexample): on a corpus with a single item whose
genre-membership set is empty, the Jaccard diagonal entry is 0, not 1.0:
the claim that every diagonal entry equals 1.0 for every input corpus,
including items with an empty genre set, is false on the code. -/
theorem jaccard_empty_diag_cex :
    ¬ (compute_jaccard_similarity (fun _ _ => false : Fin 1 → Fin 1 → Bool) 0 0 = 1) := by
  decide

/-- C1 (amended): every diagonal entry of the cosine matrix whose feature
row is not the zero vector equals 1, every diagonal entry of the Jaccard
matrix whose genre-membership set is nonempty equals 1, and a row with an
empty genre-membership set has Jaccard diagonal entry 0. -/
theorem similarity_diag (n d g : Nat) (X : Fin n → Fin d → ℚ)
    (G : Fin n → Fin g → Bool) (i : Fin n) :
    (dotF (X i) (X i) ≠ 0 → compute_cosine_similarity X i i = 1) ∧
    ((memSet (G i)).Nonempty → compute_jaccard_similarity G i i = 1) ∧
    (memSet (G i) = ∅ → compute_jaccard_similarity G i i = 0) := by
  refine ⟨fun h => cosineEntry_self_of_ne_zero (X i) h, fun h => ?_, fun h => ?_⟩
  · rw [compute_jaccard_eq_entry]
    exact jaccardEntry_self_of_nonempty (G i) h
  · rw [compute_jaccard_eq_entry]
    exact jaccardEntry_self_of_empty (G i) h

/-- C1 (witness): the amended diagonal theorem applied to a concrete
corpus of one item with a nonzero feature row and one genre. -/
theorem similarity_diag_witness :
    compute_cosine_similarity (fun _ _ => 1 : Fin 1 → Fin 1 → ℚ) 0 0 = 1 ∧
    compute_jaccard_similarity (fun _ _ => true : Fin 1 → Fin 1 → Bool) 0 0 = 1 := by
  refine ⟨(similarity_diag 1 1 1 (fun _ _ => 1) (fun _ _ => true) 0).1 ?_,
    (similarity_diag 1 1 1 (fun _ _ => 1) (fun _ _ => true) 0).2.1 ?_⟩
  · norm_num [dotF]
  · exact ⟨0, by decide⟩

/-- C2: every Jaccard entry (including the diagonal) equals the
intersection cardinality over the union cardinality of the two
genre-membership sets, and it is 0 when both sets are empty; the value is
a total rational, never undefined. -/
theorem jaccard_entry_spec (n g : Nat) (G : Fin n → Fin g → Bool) (i j : Fin n) :
    compute_jaccard_similarity G i j =
      ((memSet (G i) ∩ memSet (G j)).card : ℚ) /
        ((memSet (G i) ∪ memSet (G j)).card : ℚ) ∧
    (memSet (G i) = ∅ → memSet (G j) = ∅ → compute_jaccard_similarity G i j = 0) := by
  constructor
  · rw [compute_jaccard_eq_entry]
    exact jaccardEntry_eq_inter_div_union (G i) (G j)
  · intro h1 h2
    rw [compute_jaccard_eq_entry, jaccardEntry_eq_inter_div_union, h1, h2]
    simp

/-- C2 (witness): the Jaccard entry specification applied to a concrete
two-item corpus, with the empty-empty clause discharged on an all-empty
corpus. -/
theorem jaccard_entry_spec_witness :
    compute_jaccard_similarity (![![true, false], ![true, true]]) 0 1 =
      ((memSet (![true, false]) ∩ memSet (![true, true])).card : ℚ) /
        ((memSet (![true, false]) ∪ memSet (![true, true])).card : ℚ) ∧
    compute_jaccard_similarity (fun _ _ => false : Fin 1 → Fin 2 → Bool) 0 0 = 0 := by
  constructor
  · exact (jaccard_entry_spec 2 2 (![![true, false], ![true, true]]) 0 1).1
  · exact (jaccard_entry_spec 1 2 (fun _ _ => false) 0 0).2 (by decide) (by decide)

/-- C3: both similarity matrices are symmetric in their two indices; for
Jaccard this holds by the mirrored construction of the source loop. -/
theorem similarity_symmetric (n d g : Nat) (X : Fin n → Fin d → ℚ)
    (G : Fin n → Fin g → Bool) (i j : Fin n) :
    compute_cosine_similarity X i j = compute_cosine_similarity X j i ∧
    compute_jaccard_similarity G i j = compute_jaccard_similarity G j i := by
  constructor
  · exact cosineEntry_comm (X i) (X j)
  · rw [compute_jaccard_eq_entry, compute_jaccard_eq_entry]
    exact jaccardEntry_comm (G i) (G j)

/-- C4: with a non-negative feature matrix every cosine entry lies in
[0, 1], and every Jaccard entry of a binary genre matrix lies in [0, 1]. -/
theorem similarity_range (n d g : Nat) (X : Fin n → Fin d → ℚ)
    (G : Fin n → Fin g → Bool) (hX : ∀ i k, 0 ≤ X i k) (i j : Fin n) :
    (0 ≤ compute_cosine_similarity X i j ∧ compute_cosine_similarity X i j ≤ 1) ∧
    (0 ≤ compute_jaccard_similarity G i j ∧ compute_jaccard_similarity G i j ≤ 1) := by
  refine ⟨⟨cosineEntry_nonneg (hX i) (hX j), cosineEntry_le_one (hX i) (hX j)⟩, ?_⟩
  rw [compute_jaccard_eq_entry]
  exact ⟨jaccardEntry_nonneg (G i) (G j), jaccardEntry_le_one (G i) (G j)⟩

/-- C4 (witness): the range bounds applied to a concrete non-negative
feature matrix and a concrete genre matrix. -/
theorem similarity_range_witness :
    (0 ≤ compute_cosine_similarity (![![1, 0], ![1, 1]]) 0 1 ∧
      compute_cosine_similarity (![![1, 0], ![1, 1]]) 0 1 ≤ 1) ∧
    (0 ≤ compute_jaccard_similarity (![![true, false], ![true, true]]) 0 1 ∧
      compute_jaccard_similarity (![![true, false], ![true, true]]) 0 1 ≤ 1) :=
  similarity_range 2 2 2 (![![1, 0], ![1, 1]]) (![![true, false], ![true, true]])
    (by decide) 0 1

/-! ### Helper lemmas: min-max scaling bounds -/

lemma foldl_min_le_init (t : List ℚ) : ∀ a : ℚ, t.foldl min a ≤ a := by
  induction t with
  | nil => intro a; exact le_refl a
  | cons b t ih =>
    intro a
    calc (b :: t).foldl min a = t.foldl min (min a b) := rfl
      _ ≤ min a b := ih (min a b)
      _ ≤ a := min_le_left a b

lemma foldl_min_le_mem (t : List ℚ) : ∀ (a x : ℚ), x ∈ t → t.foldl min a ≤ x := by
  induction t with
  | nil => intro a x hx; cases hx
  | cons b t ih =>
    intro a x hx
    rcases List.mem_cons.1 hx with h | h
    · subst h
      calc (x :: t).foldl min a = t.foldl min (min a x) := rfl
        _ ≤ min a x := foldl_min_le_init t (min a x)
        _ ≤ x := min_le_right a x
    · exact ih (min a b) x h

lemma init_le_foldl_max (t : List ℚ) : ∀ a : ℚ, a ≤ t.foldl max a := by
  induction t with
  | nil => intro a; exact le_refl a
  | cons b t ih =>
    intro a
    calc a ≤ max a b := le_max_left a b
      _ ≤ t.foldl max (max a b) := ih (max a b)
      _ = (b :: t).foldl max a := rfl

lemma mem_le_foldl_max (t : List ℚ) : ∀ (a x : ℚ), x ∈ t → x ≤ t.foldl max a := by
  induction t with
  | nil => intro a x hx; cases hx
  | cons b t ih =>
    intro a x hx
    rcases List.mem_cons.1 hx with h | h
    · subst h
      calc x ≤ max a x := le_max_right a x
        _ ≤ t.foldl max (max a x) := init_le_foldl_max t (max a x)
        _ = (x :: t).foldl max a := rfl
    · exact ih (max a b) x h

lemma listMin_le {l : List ℚ} {x : ℚ} (hx : x ∈ l) : listMin l ≤ x := by
  cases l with
  | nil => cases hx
  | cons a t =>
    rcases List.mem_cons.1 hx with h | h
    · subst h; exact foldl_min_le_init t x
    · exact foldl_min_le_mem t a x h

lemma le_listMax {l : List ℚ} {x : ℚ} (hx : x ∈ l) : x ≤ listMax l := by
  cases l with
  | nil => cases hx
  | cons a t =>
    rcases List.mem_cons.1 hx with h | h
    · subst h; exact init_le_foldl_max t x
    · exact mem_le_foldl_max t a x h

lemma filledYear_mem_ofFn {n g : Nat} (c : Corpus n g) (i : Fin n) :
    filledYear c i ∈ List.ofFn (filledYear c) :=
  (List.mem_ofFn (filledYear c) (filledYear c i)).2 ⟨i, rfl⟩

lemma fitParams_fst_le {n g : Nat} (c : Corpus n g) (i : Fin n) :
    (fitParams c).1 ≤ filledYear c i :=
  listMin_le (filledYear_mem_ofFn c i)

lemma le_fitParams_snd {n g : Nat} (c : Corpus n g) (i : Fin n) :
    filledYear c i ≤ (fitParams c).2 :=
  le_listMax (filledYear_mem_ofFn c i)

lemma scaleTransform_bounds {p : ℚ × ℚ} {y : ℚ} (h1 : p.1 ≤ y) (h2 : y ≤ p.2) :
    0 ≤ scaleTransform p y ∧ scaleTransform p y ≤ 1 := by
  unfold scaleTransform
  by_cases h : p.2 - p.1 = 0
  · have hy : y = p.1 := le_antisymm (by linarith) h1
    simp [h, hy]
  · have hlt : 0 < p.2 - p.1 := by
      rcases lt_or_eq_of_le (le_trans h1 h2) with hlt | heq
      · linarith
      · exact absurd (by rw [heq]; ring) h
    rw [if_neg h]
    constructor
    · exact mul_nonneg (by linarith) (by positivity)
    · rw [mul_one_div]
      exact (div_le_one hlt).2 (by linarith)

lemma yearComponent_bounds {n g : Nat} (fe : FeatureEngineer) (c : Corpus n g)
    (hw : 0 ≤ fe.year_weight) (i : Fin n) :
    0 ≤ scaleTransform (fitParams c) (filledYear c i) * fe.year_weight ∧
    scaleTransform (fitParams c) (filledYear c i) * fe.year_weight ≤ fe.year_weight := by
  obtain ⟨h0, h1⟩ := scaleTransform_bounds (fitParams_fst_le c i) (le_fitParams_snd c i)
  exact ⟨mul_nonneg h0 hw, mul_le_of_le_one_left hw h1⟩

/-! ### Claim theorems: feature engineering -/

/-- C5: on a corpus with at least one known year, fit_transform succeeds
deterministically, imputes every missing year with the corpus median,
scales the year column into [0, year_weight], lays out the feature matrix
as the G genre flags in configured order followed by the scaled year, and
get_feature_names is the genre labels followed by "year_normalized". -/
theorem fit_transform_spec (fe : FeatureEngineer) (n g : Nat) (c : Corpus n g)
    (hn : 0 < n) (hp : presentYears c ≠ []) (hw : 0 ≤ fe.year_weight) :
    fit_transform fe c = Except.ok (afterFit fe c, fitMatrix fe c) ∧
    (∀ i, c.year i = none → filledYear c i = medianQ (presentYears c)) ∧
    (∀ i (k : Fin (g + 1)) (hk : (k : Nat) < g),
      fitMatrix fe c i k = (if c.genres i ⟨k, hk⟩ then 1 else 0)) ∧
    (∀ i, fitMatrix fe c i (Fin.last g) =
      scaleTransform (fitParams c) (filledYear c i) * fe.year_weight) ∧
    (∀ i, 0 ≤ fitMatrix fe c i (Fin.last g) ∧
      fitMatrix fe c i (Fin.last g) ≤ fe.year_weight) ∧
    get_feature_names fe = fe.genre_columns ++ ["year_normalized"] := by
  refine ⟨by simp [fit_transform, hn], fun i h => by simp [filledYear, h], ?_, ?_, ?_, rfl⟩
  · intro i k hk
    simp [fitMatrix, featureMatrix, hk]
  · intro i
    have hg : ¬ ((Fin.last g : Nat) < g) := by simp [Fin.last]
    simp [fitMatrix, featureMatrix, hg]
  · intro i
    have hg : ¬ ((Fin.last g : Nat) < g) := by simp [Fin.last]
    simpa [fitMatrix, featureMatrix, hg] using yearComponent_bounds fe c hw i

/-- C5 (witness): the fit_transform specification applied to a concrete
two-movie corpus with one missing year. -/
theorem fit_transform_spec_witness :
    fit_transform (⟨1 / 10, ["Action"], none⟩ : FeatureEngineer)
        (⟨![some 2000, none], ![![true], ![false]]⟩ : Corpus 2 1) =
      Except.ok
        (afterFit ⟨1 / 10, ["Action"], none⟩ ⟨![some 2000, none], ![![true], ![false]]⟩,
         fitMatrix ⟨1 / 10, ["Action"], none⟩ ⟨![some 2000, none], ![![true], ![false]]⟩) ∧
    filledYear (⟨![some 2000, none], ![![true], ![false]]⟩ : Corpus 2 1) 1 =
      medianQ (presentYears (⟨![some 2000, none], ![![true], ![false]]⟩ : Corpus 2 1)) := by
  have h := fit_transform_spec ⟨1 / 10, ["Action"], none⟩ 2 1
    ⟨![some 2000, none], ![![true], ![false]]⟩ (by decide)
    (by norm_num [presentYears, List.ofFn_succ, List.filterMap_cons]) (by norm_num)
  exact ⟨h.1, h.2.1 1 rfl⟩

/-- C7: transform before any fit fails with the uninitialized-state
ValueError; a successful fit_transform returns a fitted engine, on which
transform no longer raises that error. -/
theorem transform_requires_fit (fe : FeatureEngineer) (n g m : Nat)
    (c0 : Corpus n g) (c : Corpus m g) :
    (fe.is_fitted = false →
      transform fe c = Except.error "FeatureEngineer must be fitted before transform") ∧
    (0 < n →
      fit_transform fe c0 = Except.ok (afterFit fe c0, fitMatrix fe c0) ∧
      (afterFit fe c0).is_fitted = true ∧
      transform (afterFit fe c0) c ≠
        Except.error "FeatureEngineer must be fitted before transform") := by
  constructor
  · intro h
    have hnone : fe.fitted = none := Option.not_isSome_iff_eq_none.1 (by
      simpa [FeatureEngineer.is_fitted] using h)
    simp [transform, hnone]
  · intro hn
    refine ⟨by simp [fit_transform, hn], by simp [afterFit, FeatureEngineer.is_fitted], ?_⟩
    simp only [transform, afterFit]
    by_cases hm : 0 < m
    · simp [hm]
    · simp [hm]

/-- C7 (witness): a fresh engine rejects transform, and after fitting a
one-movie corpus the same engine accepts it. -/
theorem transform_requires_fit_witness :
    transform (⟨1 / 10, ["Action"], none⟩ : FeatureEngineer)
        (⟨![some 2005], ![![true]]⟩ : Corpus 1 1) =
      Except.error "FeatureEngineer must be fitted before transform" ∧
    transform (afterFit ⟨1 / 10, ["Action"], none⟩
        (⟨![some 2000], ![![true]]⟩ : Corpus 1 1))
        (⟨![some 2005], ![![true]]⟩ : Corpus 1 1) ≠
      Except.error "FeatureEngineer must be fitted before transform" := by
  have h := transform_requires_fit ⟨1 / 10, ["Action"], none⟩ 1 1 1
    (⟨![some 2000], ![![true]]⟩ : Corpus 1 1) (⟨![some 2005], ![![true]]⟩ : Corpus 1 1)
  exact ⟨h.1 rfl, (h.2 (by decide)).2.2⟩

/-- C6 (counterexample): the fitted scaler does not clip, so transform on
an out-of-sample movie whose year (2020) exceeds the fitted range
(2000..2010) yields a scaled-year component of 1/5, outside
[0, year_weight] = [0, 1/10]: the claim that every transform output has
its scaled-year component in [0, year_weight] is false on the code. -/
theorem transform_year_range_cex :
    (transform (afterFit (⟨1 / 10, ["Action"], none⟩ : FeatureEngineer)
          (⟨![some 2000, some 2010], ![![true], ![true]]⟩ : Corpus 2 1))
        (⟨![some 2020], ![![true]]⟩ : Corpus 1 1)).map (fun M => M 0 (Fin.last 1)) =
      Except.ok (1 / 5) ∧
    ¬ ((1 / 5 : ℚ) ≤ 1 / 10) := by
  constructor
  · norm_num [transform, afterFit, transformMatrix, featureMatrix, scaleTransform,
      filledYear, fitParams, listMin, listMax, List.ofFn_succ, Except.map, Fin.last]
  · norm_num

/-- C6 (amended): every feature vector from fit_transform and transform
has the G genre flags valued 0 or 1 and one scaled-year component
(dimension G+1 by construction); the fit_transform scaled-year component
lies in [0, year_weight], and the transform scaled-year component lies in
[0, year_weight] whenever the new corpus's filled years stay inside the
fitted (data_min_, data_max_) range — out-of-range years escape it. -/
theorem feature_vector_spec (fe : FeatureEngineer) (n g m : Nat) (c : Corpus n g)
    (c' : Corpus m g) (p : ℚ × ℚ) (hw : 0 ≤ fe.year_weight)
    (hp : ∀ i, p.1 ≤ filledYear c' i ∧ filledYear c' i ≤ p.2) :
    (∀ i (k : Fin (g + 1)) (hk : (k : Nat) < g),
      fitMatrix fe c i k = 0 ∨ fitMatrix fe c i k = 1) ∧
    (∀ i, 0 ≤ fitMatrix fe c i (Fin.last g) ∧
      fitMatrix fe c i (Fin.last g) ≤ fe.year_weight) ∧
    (∀ i (k : Fin (g + 1)) (hk : (k : Nat) < g),
      transformMatrix fe p c' i k = 0 ∨ transformMatrix fe p c' i k = 1) ∧
    (∀ i, 0 ≤ transformMatrix fe p c' i (Fin.last g) ∧
      transformMatrix fe p c' i (Fin.last g) ≤ fe.year_weight) := by
  have hg : ¬ ((Fin.last g : Nat) < g) := by simp [Fin.last]
  refine ⟨fun i k hk => ?_, fun i => ?_, fun i k hk => ?_, fun i => ?_⟩
  · simp only [fitMatrix, featureMatrix, dif_pos hk]
    by_cases hb : c.genres i ⟨k, hk⟩ <;> simp [hb]
  · simpa [fitMatrix, featureMatrix, hg] using yearComponent_bounds fe c hw i
  · simp only [transformMatrix, featureMatrix, dif_pos hk]
    by_cases hb : c'.genres i ⟨k, hk⟩ <;> simp [hb]
  · obtain ⟨h0, h1⟩ := scaleTransform_bounds (hp i).1 (hp i).2
    simpa [transformMatrix, featureMatrix, hg] using
      ⟨mul_nonneg h0 hw, mul_le_of_le_one_left hw h1⟩

/-- C6 (witness): the feature-vector bounds applied to a concrete fit
corpus, with transform applied inside the fitted year range. -/
theorem feature_vector_spec_witness :
    (fitMatrix (⟨1 / 10, ["Action"], none⟩ : FeatureEngineer)
        (⟨![some 2000, some 2010], ![![true], ![false]]⟩ : Corpus 2 1) 0 0 = 0 ∨
      fitMatrix (⟨1 / 10, ["Action"], none⟩ : FeatureEngineer)
        (⟨![some 2000, some 2010], ![![true], ![false]]⟩ : Corpus 2 1) 0 0 = 1) ∧
    (0 ≤ transformMatrix (⟨1 / 10, ["Action"], none⟩ : FeatureEngineer) (2000, 2010)
        (⟨![some 2005], ![![true]]⟩ : Corpus 1 1) 0 (Fin.last 1) ∧
      transformMatrix (⟨1 / 10, ["Action"], none⟩ : FeatureEngineer) (2000, 2010)
        (⟨![some 2005], ![![true]]⟩ : Corpus 1 1) 0 (Fin.last 1) ≤ 1 / 10) := by
  have h := feature_vector_spec ⟨1 / 10, ["Action"], none⟩ 2 1 1
    (⟨![some 2000, some 2010], ![![true], ![false]]⟩ : Corpus 2 1)
    (⟨![some 2005], ![![true]]⟩ : Corpus 1 1) (2000, 2010) (by norm_num)
    (fun i => by norm_num [filledYear])
  exact ⟨h.1 0 0 (by decide), h.2.2.2 0⟩

/-! ### Helper lemmas: the similarity-matrix dict -/

lemma dictGet_dictSet_self {α : Type} (dct : List (String × α)) (k : String) (v : α) :
    dictGet (dictSet dct k v) k = some v := by
  induction dct with
  | nil => simp [dictSet, dictGet]
  | cons e rest ih =>
    obtain ⟨k0, v0⟩ := e
    by_cases h : k0 = k
    · simp [dictSet, dictGet, h]
    · simp [dictSet, dictGet, h, ih]

lemma dictGet_dictSet_ne {α : Type} (dct : List (String × α)) (k k' : String) (v : α)
    (h : k ≠ k') : dictGet (dictSet dct k v) k' = dictGet dct k' := by
  induction dct with
  | nil => simp [dictSet, dictGet, h]
  | cons e rest ih =>
    obtain ⟨k0, v0⟩ := e
    by_cases h0 : k0 = k
    · subst h0
      simp [dictSet, dictGet, h]
    · simp [dictSet, dictGet, h0, ih]

lemma simStep_other {n d g : Nat} (X : Fin n → Fin d → ℚ) (G : Fin n → Fin g → Bool)
    (dct : List (String × (Fin n → Fin n → ℝ))) (m k : String) (h : m ≠ k) :
    dictGet (simStep X G dct m) k = dictGet dct k := by
  unfold simStep
  by_cases h1 : m = "cosine"
  · subst h1
    simp [dictGet_dictSet_ne dct _ _ _ h]
  · by_cases h2 : m = "jaccard"
    · subst h2
      simp [h1, dictGet_dictSet_ne dct _ _ _ h]
    · simp [h1, h2]

lemma foldl_simStep_not_mem {n d g : Nat} (X : Fin n → Fin d → ℚ)
    (G : Fin n → Fin g → Bool) (ms : List String) (k : String) (h : k ∉ ms) :
    ∀ dct, dictGet (ms.foldl (fun dct m => simStep X G dct m) dct) k = dictGet dct k := by
  induction ms with
  | nil => intro dct; rfl
  | cons m ms ih =>
    intro dct
    have hk : k ≠ m ∧ k ∉ ms := by
      constructor
      · intro he; exact h (by simp [he])
      · intro he; exact h (by simp [he])
    calc dictGet ((m :: ms).foldl (fun dct m => simStep X G dct m) dct) k
        = dictGet (ms.foldl (fun dct m => simStep X G dct m) (simStep X G dct m)) k := rfl
      _ = dictGet (simStep X G dct m) k := ih hk.2 (simStep X G dct m)
      _ = dictGet dct k := simStep_other X G dct m k (fun he => hk.1 he.symm)

lemma foldl_simStep_mem_cosine {n d g : Nat} (X : Fin n → Fin d → ℚ)
    (G : Fin n → Fin g → Bool) (ms : List String) (h : "cosine" ∈ ms) :
    ∀ dct, dictGet (ms.foldl (fun dct m => simStep X G dct m) dct) "cosine" =
      some (compute_cosine_similarity X) := by
  induction ms with
  | nil => cases h
  | cons m ms ih =>
    intro dct
    by_cases hm : "cosine" ∈ ms
    · exact ih hm (simStep X G dct m)
    · have hme : m = "cosine" := by
        rcases List.mem_cons.1 h with he | he
        · exact he.symm
        · exact absurd he hm
      calc dictGet ((m :: ms).foldl (fun dct m => simStep X G dct m) dct) "cosine"
          = dictGet (ms.foldl (fun dct m => simStep X G dct m) (simStep X G dct m)) "cosine" :=
            rfl
        _ = dictGet (simStep X G dct m) "cosine" := foldl_simStep_not_mem X G ms _ hm _
        _ = some (compute_cosine_similarity X) := by
            simp [hme, simStep, dictGet_dictSet_self]

lemma foldl_simStep_mem_jaccard {n d g : Nat} (X : Fin n → Fin d → ℚ)
    (G : Fin n → Fin g → Bool) (ms : List String) (h : "jaccard" ∈ ms) :
    ∀ dct, dictGet (ms.foldl (fun dct m => simStep X G dct m) dct) "jaccard" =
      some (fun i j => ((compute_jaccard_similarity G i j : ℚ) : ℝ)) := by
  induction ms with
  | nil => cases h
  | cons m ms ih =>
    intro dct
    by_cases hm : "jaccard" ∈ ms
    · exact ih hm (simStep X G dct m)
    · have hme : m = "jaccard" := by
        rcases List.mem_cons.1 h with he | he
        · exact he.symm
        · exact absurd he hm
      calc dictGet ((m :: ms).foldl (fun dct m => simStep X G dct m) dct) "jaccard"
          = dictGet (ms.foldl (fun dct m => simStep X G dct m) (simStep X G dct m)) "jaccard" :=
            rfl
        _ = dictGet (simStep X G dct m) "jaccard" := foldl_simStep_not_mem X G ms _ hm _
        _ = some (fun i j => ((compute_jaccard_similarity G i j : ℚ) : ℝ)) := by
            simp [hme, simStep, dictGet_dictSet_self]

lemma simStep_unknown_key {n d g : Nat} (X : Fin n → Fin d → ℚ)
    (G : Fin n → Fin g → Bool) (dct : List (String × (Fin n → Fin n → ℝ)))
    (m k : String) (hk : k ∉ SUPPORTED_METHODS) :
    dictGet (simStep X G dct m) k = dictGet dct k := by
  by_cases h : m = k
  · subst h
    have h1 : m ≠ "cosine" := fun he => hk (by simp [SUPPORTED_METHODS, he])
    have h2 : m ≠ "jaccard" := fun he => hk (by simp [SUPPORTED_METHODS, he])
    simp [simStep, h1, h2]
  · exact simStep_other X G dct m k h

lemma foldl_simStep_unknown_key {n d g : Nat} (X : Fin n → Fin d → ℚ)
    (G : Fin n → Fin g → Bool) (ms : List String) (k : String)
    (hk : k ∉ SUPPORTED_METHODS) :
    ∀ dct, dictGet (ms.foldl (fun dct m => simStep X G dct m) dct) k = dictGet dct k := by
  induction ms with
  | nil => intro dct; rfl
  | cons m ms ih =>
    intro dct
    calc dictGet ((m :: ms).foldl (fun dct m => simStep X G dct m) dct) k
        = dictGet (ms.foldl (fun dct m => simStep X G dct m) (simStep X G dct m)) k := rfl
      _ = dictGet (simStep X G dct m) k := ih (simStep X G dct m)
      _ = dictGet dct k := simStep_unknown_key X G dct m k hk

/-! ### Claim theorems: compute_all_similarities -/

/-- C8: compute_all_similarities never fails on unknown metric names: the
returned dict is the stored dict, each recognized requested name maps to
its computed matrix, and any key outside SUPPORTED_METHODS is left exactly
as it was before the call (unrecognized names are skipped). -/
theorem compute_all_spec (n d g : Nat) (sc : SimilarityComputer n d)
    (X : Fin n → Fin d → ℚ) (gc : List String) (G : Fin n → Fin g → Bool)
    (methods : List String) :
    (compute_all_similarities sc X gc G (some methods)).2 =
      (compute_all_similarities sc X gc G (some methods)).1.similarity_matrices ∧
    ("cosine" ∈ methods →
      dictGet (compute_all_similarities sc X gc G (some methods)).2 "cosine" =
        some (compute_cosine_similarity X)) ∧
    ("jaccard" ∈ methods →
      dictGet (compute_all_similarities sc X gc G (some methods)).2 "jaccard" =
        some (fun i j => ((compute_jaccard_similarity G i j : ℚ) : ℝ))) ∧
    (∀ k, k ∉ SUPPORTED_METHODS →
      dictGet (compute_all_similarities sc X gc G (some methods)).2 k =
        dictGet sc.similarity_matrices k) := by
  refine ⟨rfl, fun h => ?_, fun h => ?_, fun k hk => ?_⟩
  · exact foldl_simStep_mem_cosine X G methods h sc.similarity_matrices
  · exact foldl_simStep_mem_jaccard X G methods h sc.similarity_matrices
  · exact foldl_simStep_unknown_key X G methods k hk sc.similarity_matrices

/-- C8 (witness): a request list containing both recognized names and an
unknown one computes both matrices and leaves the unknown key absent. -/
theorem compute_all_spec_witness :
    dictGet (compute_all_similarities (SimilarityComputer.init 1 1)
        (fun _ _ => 1 : Fin 1 → Fin 1 → ℚ) [] (fun _ _ => true : Fin 1 → Fin 1 → Bool)
        (some ["cosine", "unknown", "jaccard"])).2 "cosine" =
      some (compute_cosine_similarity (fun _ _ => 1 : Fin 1 → Fin 1 → ℚ)) ∧
    dictGet (compute_all_similarities (SimilarityComputer.init 1 1)
        (fun _ _ => 1 : Fin 1 → Fin 1 → ℚ) [] (fun _ _ => true : Fin 1 → Fin 1 → Bool)
        (some ["cosine", "unknown", "jaccard"])).2 "unknown" = none := by
  have h := compute_all_spec 1 1 1 (SimilarityComputer.init 1 1)
    (fun _ _ => 1) [] (fun _ _ => true) ["cosine", "unknown", "jaccard"]
  refine ⟨h.2.1 (by decide), ?_⟩
  have hu := h.2.2.2 "unknown" (by decide)
  simpa [SimilarityComputer.init, dictGet] using hu

/-- C10: the stored similarity_matrices dict accumulates: an entry
computed by an earlier call survives a later compute_all_similarities call
whose methods list does not name it, it is still in the returned dict, and
get_similarity_matrix still serves it. -/
theorem stale_matrices_persist (n d g : Nat) (sc : SimilarityComputer n d)
    (X : Fin n → Fin d → ℚ) (gc : List String) (G : Fin n → Fin g → Bool)
    (methods : List String) (m : String) (M : Fin n → Fin n → ℝ)
    (hM : dictGet sc.similarity_matrices m = some M) (hm : m ∉ methods) :
    dictGet (compute_all_similarities sc X gc G (some methods)).1.similarity_matrices m =
      some M ∧
    dictGet (compute_all_similarities sc X gc G (some methods)).2 m = some M ∧
    get_similarity_matrix (compute_all_similarities sc X gc G (some methods)).1 m =
      Except.ok M := by
  have h : dictGet (compute_all_similarities sc X gc G (some methods)).1.similarity_matrices m
      = some M := by
    calc dictGet (compute_all_similarities sc X gc G (some methods)).1.similarity_matrices m
        = dictGet sc.similarity_matrices m :=
          foldl_simStep_not_mem X G methods m hm sc.similarity_matrices
      _ = some M := hM
  exact ⟨h, h, by simp [get_similarity_matrix, h]⟩

/-- C10 (witness): after computing only jaccard, a second call asking only
for cosine still returns and serves the jaccard matrix of the first call. -/
theorem stale_matrices_persist_witness :
    dictGet (compute_all_similarities
        ((compute_all_similarities (SimilarityComputer.init 1 1)
          (fun _ _ => 1 : Fin 1 → Fin 1 → ℚ) []
          (fun _ _ => true : Fin 1 → Fin 1 → Bool) (some ["jaccard"])).1)
        (fun _ _ => 1 : Fin 1 → Fin 1 → ℚ) []
        (fun _ _ => true : Fin 1 → Fin 1 → Bool) (some ["cosine"])).2 "jaccard" =
      some (fun i j =>
        ((compute_jaccard_similarity (fun _ _ => true : Fin 1 → Fin 1 → Bool) i j : ℚ) : ℝ)) :=
  (stale_matrices_persist 1 1 1
    ((compute_all_similarities (SimilarityComputer.init 1 1)
      (fun _ _ => 1 : Fin 1 → Fin 1 → ℚ) []
      (fun _ _ => true : Fin 1 → Fin 1 → Bool) (some ["jaccard"])).1)
    (fun _ _ => 1) [] (fun _ _ => true) ["cosine"] "jaccard"
    (fun i j =>
      ((compute_jaccard_similarity (fun _ _ => true : Fin 1 → Fin 1 → Bool) i j : ℚ) : ℝ))
    rfl (by decide)).2.1

/-! ### Helper lemmas: request validation -/

lemma checkItems_ok_ratings :
    ∀ v : List (Int × ℚ), checkItems v = Except.ok () →
      ∀ p ∈ v, 1 / 2 ≤ p.2 ∧ p.2 ≤ 5 := by
  intro v
  induction v with
  | nil => intro _ p hp; cases hp
  | cons q rest ih =>
    obtain ⟨mid, r⟩ := q
    intro h p hp
    by_cases h1 : mid < 1
    · rw [checkItems, if_pos h1] at h
      simp at h
    · by_cases h2 : r < 1 / 2 ∨ 5 < r
      · rw [checkItems, if_neg h1, if_pos h2] at h
        simp at h
      · rw [checkItems, if_neg h1, if_neg h2] at h
        push_neg at h2
        rcases List.mem_cons.1 hp with he | he
        · subst he
          exact ⟨h2.1, h2.2⟩
        · exact ih h p he

/-! ### Claim theorems: request validation -/

/-- C9: a recommendation request with an empty user_ratings mapping is
rejected with a validation error before any recommendation work, and every
accepted request carries only ratings between 0.5 and 5.0. -/
theorem request_validation_spec (ur : List (Int × ℚ)) (n : Int) (mr : ℚ) :
    (ur = [] → ∃ e, mkRecommendationRequest ur n mr = Except.error e) ∧
    (∀ req, mkRecommendationRequest ur n mr = Except.ok req →
      req.user_ratings = ur ∧ ∀ p ∈ ur, 1 / 2 ≤ p.2 ∧ p.2 ≤ 5) := by
  constructor
  · intro h
    subst h
    by_cases h1 : n < 1 ∨ 50 < n
    · exact ⟨"n out of range", by rw [mkRecommendationRequest, if_pos h1]⟩
    · by_cases h2 : mr < 1 / 2 ∨ 5 < mr
      · exact ⟨"min_rating out of range",
          by rw [mkRecommendationRequest, if_neg h1, if_pos h2]⟩
      · exact ⟨"user_ratings cannot be empty",
          by rw [mkRecommendationRequest, if_neg h1, if_neg h2]; rfl⟩
  · intro req h
    rw [mkRecommendationRequest] at h
    by_cases h1 : n < 1 ∨ 50 < n
    · rw [if_pos h1] at h
      simp at h
    · rw [if_neg h1] at h
      by_cases h2 : mr < 1 / 2 ∨ 5 < mr
      · rw [if_pos h2] at h
        simp at h
      · rw [if_neg h2, validate_ratings] at h
        by_cases h3 : ur.isEmpty
        · rw [if_pos h3] at h
          simp [Except.map] at h
        · rw [if_neg h3] at h
          cases hck : checkItems ur with
          | error e =>
            rw [hck] at h
            simp [Except.map] at h
          | ok u =>
            rw [hck] at h
            simp only [Except.map, Except.ok.injEq] at h
            refine ⟨by rw [← h], checkItems_ok_ratings ur ?_⟩
            rw [hck]

/-- C9 (witness): the empty mapping is rejected, and a concrete accepted
request has its rating inside [0.5, 5]. -/
theorem request_validation_spec_witness :
    (∃ e, mkRecommendationRequest [] 5 3 = Except.error e) ∧
    ((1 / 2 : ℚ) ≤ 4 ∧ (4 : ℚ) ≤ 5) := by
  constructor
  · exact (request_validation_spec [] 5 3).1 rfl
  · refine ((request_validation_spec [(1, 4)] 10 (7 / 2)).2 ⟨[(1, 4)], 10, 7 / 2⟩ ?_).2
      (1, 4) (by simp)
    norm_num [mkRecommendationRequest, validate_ratings, checkItems, Except.map]

end MovieRec
